import Mathlib

/- Verification of the OCaml runtime backtrace subsystem interface
(`runtime/caml/backtrace.h`).

The repository provides the header `backtrace.h`; the implementation files it
documents (`backtrace_byt.c`, `backtrace_nat.c`, `backtrace.c`,
`backtrace_prim.h`) are not part of the source tree, so the operations below
are modelled from the specification's description of their behaviour, guided
by the contracts stated in the header's comments.
-/

namespace Backtrace

/-- Modelled from the spec: `BACKTRACE_BUFFER_SIZE` is defined in
`backtrace_prim.h`, which is not in the source tree.  The header only states
that the buffer's "maximum size is determined by BACKTRACE_BUFFER_SIZE"; the
concrete value (1024 in the upstream runtime) is irrelevant to the properties
proved here, only that a fixed positive cap exists. -/
def BACKTRACE_BUFFER_SIZE : Nat := 1024

/-- A `backtrace_slot`: opaque, backend-tagged identifier of one call frame.
Per the spec's data model, either a (code-pointer, offset) pair for the
interpreted backend or a return address for the compiled backend. -/
inductive backtrace_slot : Type
  | interpreted (code : Nat) (off : Nat)
  | native (retAddr : Nat)
  deriving DecidableEq, Repr

/-- The per-execution-context backtrace state, i.e. the `Caml_state` fields
declared by the header: `backtrace_active`, `backtrace_buffer`,
`backtrace_pos`, `backtrace_last_exn`.  Exception values are identified by
their identity, modelled as a `Nat`; `none` models the cleared
(`Val_unit`) last-exception reference.  `backtrace_buffer` holds the valid
slots, i.e. the array entries at indices `0 .. backtrace_pos - 1`. -/
structure CamlState : Type where
  backtrace_active : Bool
  backtrace_buffer : List backtrace_slot
  backtrace_pos : Nat
  backtrace_last_exn : Option Nat
  deriving DecidableEq, Repr

/-- The initial backtrace state of a freshly created execution context:
recording inactive, empty buffer, no last exception. -/
def initState : CamlState :=
  { backtrace_active := false
    backtrace_buffer := []
    backtrace_pos := 0
    backtrace_last_exn := none }

/-- Modelled from the spec: `caml_record_backtraces` (implemented in
`backtrace.c`, not in the source tree).  The spec says enabling "clears
`length` and `lastException` for a clean start" regardless of prior state,
and the header's invariant "`backtrace_pos` is always zero if
`!backtrace_active`" forces disabling to clear the position as well. -/
def caml_record_backtraces (flag : Bool) (_s : CamlState) : CamlState :=
  { backtrace_active := flag
    backtrace_buffer := []
    backtrace_pos := 0
    backtrace_last_exn := none }

/-- Modelled from the spec: the frame-appending phase shared by the two
frame-walker variants (`backtrace_byt.c` / `backtrace_nat.c`, not in the
source tree).  Appends the unwound frames at the current position, stopping
at the configured maximum slot count `BACKTRACE_BUFFER_SIZE`. -/
def stashFrames (frames : List backtrace_slot) (s : CamlState) : CamlState :=
  let added := frames.take (BACKTRACE_BUFFER_SIZE - s.backtrace_pos)
  { s with
    backtrace_buffer := s.backtrace_buffer ++ added
    backtrace_pos := s.backtrace_pos + added.length }

/-- Modelled from the spec: `caml_stash_backtrace` (implemented in
`backtrace_byt.c`, not in the source tree), the raise-path entry point.
With recording inactive it is a no-op.  Otherwise, per the spec's re-raise
suppression: the exception's identity is compared against
`backtrace_last_exn`; if identical — or if the interpreter passes
`reraise = 1`, bypassing the identity heuristic — appending resumes at the
current length, else the capture restarts at length 0.  `lastException` is
updated to the newly raised value in both cases.  `frames` stands for the
call frames the walker unwinds for this raise step. -/
def caml_stash_backtrace (exn : Nat) (frames : List backtrace_slot)
    (reraise : Bool) (s : CamlState) : CamlState :=
  if s.backtrace_active = false then s
  else
    let isReraise := reraise || decide (s.backtrace_last_exn = some exn)
    let s1 :=
      if isReraise then s
      else { s with backtrace_buffer := [], backtrace_pos := 0 }
    stashFrames frames { s1 with backtrace_last_exn := some exn }

/-- A `raw_backtrace`, per the spec's data model: an immutable ordered
sequence of slots plus metadata — the backend kind is carried by the slots'
tags, and `allocSite0` records whether slot 0 represents an allocation site
rather than a call frame (set only for allocation-event captures). -/
structure raw_backtrace : Type where
  allocSite0 : Bool
  slots : List backtrace_slot
  deriving DecidableEq, Repr

/-- The full logical call chain of a domain: the frames of the current fiber
(innermost first) followed by those of each parent fiber in turn, as return
addresses.  The walk continues into a parent's chain when a fiber's chain is
exhausted, so a capture reflects the full logical call history. -/
def logicalCallstack (fibers : List (List Nat)) : List Nat :=
  fibers.flatten

/-- Modelled from the spec: `caml_get_callstack` (implemented in
`backtrace_byt.c` / `backtrace_nat.c`, not in the source tree).  Obtains up
to `max_slots` of the callstack of the current domain, including parent
fibers, innermost to outermost.  If `alloc_idx` is non-negative the capture
is of an allocation point: slot 0 is synthesized to represent the
allocation call site itself (`alloc_pc`, introspected from the machine
state), preceding the ordinary call-frame walk, and the result is marked as
an allocation-site capture.  The result is an immutable copy; its length may
be less than `max_slots` if the stack is shorter. -/
def caml_get_callstack (max_slots : Nat) (alloc_pc : Nat)
    (fibers : List (List Nat)) (alloc_idx : Int) : raw_backtrace :=
  let walk := (logicalCallstack fibers).map backtrace_slot.native
  if 0 ≤ alloc_idx then
    { allocSite0 := true
      slots := (backtrace_slot.native alloc_pc :: walk).take max_slots }
  else
    { allocSite0 := false
      slots := walk.take max_slots }

/-- One debug event of the debug-info table: maps one code location to a
source position. -/
structure debug_event : Type where
  ev_pos : Nat
  ev_file : String
  ev_line : Nat
  deriving DecidableEq, Repr

/-- The magic number a well-formed debug-info file must begin with. -/
def cds_magic : Nat := 0x43616d6c

/-- A candidate debug-info (`CDS`) file image: a magic number followed by
debug events.  The file is malformed when the magic does not match. -/
structure cds_file : Type where
  magic : Nat
  events : List debug_event
  deriving DecidableEq, Repr

/-- Modelled from the spec: `caml_load_main_debug_info` (implemented in
`backtrace_byt.c`, not in the source tree).  Loads the debug-info table from
the file named by `caml_cds_file`; `none` models a missing file.  A missing
or malformed file degrades to an empty table rather than failing the
caller — the function is total and never raises. -/
def caml_load_main_debug_info (file : Option cds_file) : List debug_event :=
  match file with
  | none => []
  | some f => if f.magic = cds_magic then f.events else []

/-- A decoded frame: the symbolic view of one slot.  A slot with no matching
debug entry decodes to the `unknown` placeholder, never an error. -/
inductive decoded_frame : Type
  | located (file : String) (line : Nat)
  | unknown
  deriving DecidableEq, Repr

/-- The code location a slot is looked up by in the debug-info table: the
bytecode offset for the interpreted backend, the return address for the
compiled backend. -/
def slot_key : backtrace_slot → Nat
  | backtrace_slot.interpreted _ off => off
  | backtrace_slot.native retAddr => retAddr

/-- Modelled from the spec: the raw-to-symbolic decoding of one slot
(`backtrace.c`, not in the source tree): look the slot's code location up in
the loaded table; no matching entry yields the `unknown` placeholder. -/
def decode_slot (table : List debug_event) (s : backtrace_slot) :
    decoded_frame :=
  match table.find? (fun e => e.ev_pos = slot_key s) with
  | some e => decoded_frame.located e.ev_file e.ev_line
  | none => decoded_frame.unknown

/-- Modelled from the spec: decoding a whole raw backtrace maps each slot to
its decoded frame, preserving length and order. -/
def decode_backtrace (table : List debug_event) (bt : raw_backtrace) :
    List decoded_frame :=
  bt.slots.map (decode_slot table)

/-- The text the default printer emits for one decoded frame; an unresolved
slot prints a placeholder line marking the unknown location. -/
def frame_line : decoded_frame → String
  | decoded_frame.located f l => "Called from " ++ f ++ ", line " ++ toString l
  | decoded_frame.unknown => "Called from unknown location"

/-- Modelled from the spec: `caml_print_exception_backtrace` (implemented in
`backtrace.c`, not in the source tree), the default C-level printer: renders
a raw backtrace by decoding on the fly, one output line per frame.  The
result models the lines written to the error stream. -/
def caml_print_exception_backtrace (table : List debug_event)
    (bt : raw_backtrace) : List String :=
  (decode_backtrace table bt).map frame_line

/-- One step of an execution context's backtrace state: either the recording
toggle or a raise-path capture. -/
inductive Step : CamlState → CamlState → Prop
  | record (flag : Bool) (s : CamlState) :
      Step s (caml_record_backtraces flag s)
  | stash (exn : Nat) (frames : List backtrace_slot) (reraise : Bool)
      (s : CamlState) :
      Step s (caml_stash_backtrace exn frames reraise s)

/-- States an execution context can be in at an observation point outside an
in-progress capture: the initial state, closed under the API operations. -/
inductive Reachable : CamlState → Prop
  | init : Reachable initState
  | step {s t : CamlState} : Reachable s → Step s t → Reachable t

/-- A sequence of raises of the same exception value `exn`, each step
carrying the frames unwound at that step and the interpreter's reraise
flag. -/
def reraiseSeq (exn : Nat) (steps : List (List backtrace_slot × Bool))
    (s : CamlState) : CamlState :=
  steps.foldl (fun t p => caml_stash_backtrace exn p.1 p.2 t) s

theorem stash_inactive_eq (exn : Nat) (frames : List backtrace_slot)
    (reraise : Bool) (s : CamlState) (h : s.backtrace_active = false) :
    caml_stash_backtrace exn frames reraise s = s := by
  simp [caml_stash_backtrace, h]

theorem stash_reraise_eq (exn : Nat) (frames : List backtrace_slot)
    (reraise : Bool) (s : CamlState) (hact : s.backtrace_active = true)
    (hr : reraise = true ∨ s.backtrace_last_exn = some exn) :
    caml_stash_backtrace exn frames reraise s =
      { s with
        backtrace_buffer := s.backtrace_buffer ++
          frames.take (BACKTRACE_BUFFER_SIZE - s.backtrace_pos)
        backtrace_pos := s.backtrace_pos +
          (frames.take (BACKTRACE_BUFFER_SIZE - s.backtrace_pos)).length
        backtrace_last_exn := some exn } := by
  have hre : (reraise || decide (s.backtrace_last_exn = some exn)) = true := by
    rcases hr with h | h <;> simp [h]
  simp [caml_stash_backtrace, hact, hre, stashFrames]

theorem stash_fresh_eq (exn : Nat) (frames : List backtrace_slot)
    (s : CamlState) (hact : s.backtrace_active = true)
    (hne : s.backtrace_last_exn ≠ some exn) :
    caml_stash_backtrace exn frames false s =
      { s with
        backtrace_buffer := frames.take BACKTRACE_BUFFER_SIZE
        backtrace_pos := (frames.take BACKTRACE_BUFFER_SIZE).length
        backtrace_last_exn := some exn } := by
  simp [caml_stash_backtrace, hact, hne, stashFrames]

theorem reraiseSeq_mono (exn : Nat) (steps : List (List backtrace_slot × Bool)) :
    ∀ s : CamlState, s.backtrace_active = true →
      s.backtrace_last_exn = some exn →
      s.backtrace_pos ≤ (reraiseSeq exn steps s).backtrace_pos ∧
        (reraiseSeq exn steps s).backtrace_active = true ∧
        (reraiseSeq exn steps s).backtrace_last_exn = some exn := by
  induction steps with
  | nil => intro s hact hlast; exact ⟨Nat.le_refl _, hact, hlast⟩
  | cons hd tl ih =>
    intro s hact hlast
    have heq := stash_reraise_eq exn hd.1 hd.2 s hact (Or.inr hlast)
    have hstep : reraiseSeq exn (hd :: tl) s =
        reraiseSeq exn tl (caml_stash_backtrace exn hd.1 hd.2 s) := rfl
    rw [hstep, heq]
    have h2 := ih { s with
        backtrace_buffer := s.backtrace_buffer ++
          hd.1.take (BACKTRACE_BUFFER_SIZE - s.backtrace_pos)
        backtrace_pos := s.backtrace_pos +
          (hd.1.take (BACKTRACE_BUFFER_SIZE - s.backtrace_pos)).length
        backtrace_last_exn := some exn } hact rfl
    exact ⟨Nat.le_trans (Nat.le_add_right _ _) h2.1, h2.2.1, h2.2.2⟩

/-- The invariant maintained on a context's backtrace state: the buffer holds
valid slots exactly at indices `0 .. backtrace_pos - 1`, the position never
exceeds `BACKTRACE_BUFFER_SIZE`, and the position is zero whenever recording
is inactive. -/
def stateInv (s : CamlState) : Prop :=
  s.backtrace_buffer.length = s.backtrace_pos ∧
    s.backtrace_pos ≤ BACKTRACE_BUFFER_SIZE ∧
    (s.backtrace_active = false → s.backtrace_pos = 0)

theorem stateInv_stash (exn : Nat) (frames : List backtrace_slot)
    (reraise : Bool) (s : CamlState) (h : stateInv s) :
    stateInv (caml_stash_backtrace exn frames reraise s) := by
  obtain ⟨h1, h2, h3⟩ := h
  by_cases hact : s.backtrace_active = false
  · rw [stash_inactive_eq exn frames reraise s hact]; exact ⟨h1, h2, h3⟩
  · have hact' : s.backtrace_active = true := by
      revert hact; cases s.backtrace_active <;> simp
    by_cases hre : reraise = true ∨ s.backtrace_last_exn = some exn
    · rw [stash_reraise_eq exn frames reraise s hact' hre]
      refine ⟨by simp [h1], ?_, by intro hc; simp [hact'] at hc⟩
      have := List.length_take (BACKTRACE_BUFFER_SIZE - s.backtrace_pos) frames
      simp only [this]
      omega
    · push_neg at hre
      have hflag : reraise = false := by
        revert hre; cases reraise <;> simp
      subst hflag
      rw [stash_fresh_eq exn frames s hact' hre.2]
      refine ⟨by simp, ?_, by intro hc; simp [hact'] at hc⟩
      have := List.length_take BACKTRACE_BUFFER_SIZE frames
      simp only [this]
      omega

theorem stateInv_reachable {s : CamlState} (h : Reachable s) : stateInv s := by
  induction h with
  | init => exact ⟨rfl, by simp [initState, BACKTRACE_BUFFER_SIZE], fun _ => rfl⟩
  | step _ hstep ih =>
    cases hstep with
    | record flag s =>
      exact ⟨rfl, by simp [caml_record_backtraces, BACKTRACE_BUFFER_SIZE],
        fun _ => rfl⟩
    | stash exn frames reraise s => exact stateInv_stash _ _ _ _ ih

theorem decode_slot_nil (s : backtrace_slot) :
    decode_slot [] s = decoded_frame.unknown := rfl

/-- A context state reached by enabling recording and stashing one raise:
used to exhibit concrete reachable states. -/
def demoActive : CamlState :=
  caml_stash_backtrace 5 [backtrace_slot.native 9] false
    (caml_record_backtraces true initState)

/-- The state `demoActive` after recording is disabled again. -/
def demoDisabled : CamlState :=
  caml_record_backtraces false demoActive

theorem demoActive_reachable : Reachable demoActive :=
  Reachable.step (Reachable.step Reachable.init (Step.record true initState))
    (Step.stash 5 [backtrace_slot.native 9] false
      (caml_record_backtraces true initState))

/-- C1: while recording is active, raising an exception identical to the
context's last-raised exception (a re-raise) appends the newly unwound
frames at the current length instead of restarting the buffer, and across a
whole sequence of raises of that same exception the recorded backtrace
length only grows and never resets. -/
theorem reraise_appends_never_resets (exn : Nat)
    (frames : List backtrace_slot) (reraise : Bool)
    (steps : List (List backtrace_slot × Bool)) (s : CamlState)
    (hact : s.backtrace_active = true)
    (hlast : s.backtrace_last_exn = some exn) :
    caml_stash_backtrace exn frames reraise s =
      { s with
        backtrace_buffer := s.backtrace_buffer ++
          frames.take (BACKTRACE_BUFFER_SIZE - s.backtrace_pos)
        backtrace_pos := s.backtrace_pos +
          (frames.take (BACKTRACE_BUFFER_SIZE - s.backtrace_pos)).length
        backtrace_last_exn := some exn } ∧
    s.backtrace_pos ≤ (reraiseSeq exn steps s).backtrace_pos :=
  ⟨stash_reraise_eq exn frames reraise s hact (Or.inr hlast),
    (reraiseSeq_mono exn steps s hact hlast).1⟩

theorem reraise_appends_never_resets_witness :
    (⟨true, [], 0, some 7⟩ : CamlState).backtrace_active = true ∧
    (⟨true, [], 0, some 7⟩ : CamlState).backtrace_last_exn = some 7 ∧
    (caml_stash_backtrace 7 [backtrace_slot.native 1] false
        ⟨true, [], 0, some 7⟩ =
      { (⟨true, [], 0, some 7⟩ : CamlState) with
        backtrace_buffer := [] ++
          [backtrace_slot.native 1].take (BACKTRACE_BUFFER_SIZE - 0)
        backtrace_pos := 0 +
          ([backtrace_slot.native 1].take (BACKTRACE_BUFFER_SIZE - 0)).length
        backtrace_last_exn := some 7 } ∧
      (⟨true, [], 0, some 7⟩ : CamlState).backtrace_pos ≤
        (reraiseSeq 7 [([backtrace_slot.native 2], true)]
          ⟨true, [], 0, some 7⟩).backtrace_pos) :=
  ⟨rfl, rfl, reraise_appends_never_resets 7 [backtrace_slot.native 1] false
    [([backtrace_slot.native 2], true)] ⟨true, [], 0, some 7⟩ rfl rfl⟩

/-- C2: at every observation point outside an in-progress capture (i.e. in
every reachable context state), if recording is inactive then the recorded
backtrace length `backtrace_pos` is zero. -/
theorem inactive_pos_zero {s : CamlState} (h : Reachable s)
    (ha : s.backtrace_active = false) : s.backtrace_pos = 0 :=
  (stateInv_reachable h).2.2 ha

theorem inactive_pos_zero_witness :
    Reachable demoDisabled ∧ demoDisabled.backtrace_active = false ∧
    demoDisabled.backtrace_pos = 0 :=
  have hr : Reachable demoDisabled :=
    Reachable.step demoActive_reachable (Step.record false demoActive)
  ⟨hr, rfl, inactive_pos_zero hr rfl⟩

/-- C3: whatever the prior state of the context, calling the recording
toggle with `enabled = true` resets the recorded length to 0 and clears the
last-raised-exception reference. -/
theorem record_enable_resets (s : CamlState) :
    (caml_record_backtraces true s).backtrace_pos = 0 ∧
    (caml_record_backtraces true s).backtrace_last_exn = none :=
  ⟨rfl, rfl⟩

/-- C7: while recording is active, raising an exception value that is not
identical to the context's last-raised exception starts a fresh capture: the
buffer restarts at length 0 before the new frames are appended, and
`lastException` is updated to the newly raised value. -/
theorem fresh_raise_restarts (exn : Nat) (frames : List backtrace_slot)
    (s : CamlState) (hact : s.backtrace_active = true)
    (hne : s.backtrace_last_exn ≠ some exn) :
    (caml_stash_backtrace exn frames false s).backtrace_buffer =
      frames.take BACKTRACE_BUFFER_SIZE ∧
    (caml_stash_backtrace exn frames false s).backtrace_pos =
      (frames.take BACKTRACE_BUFFER_SIZE).length ∧
    (caml_stash_backtrace exn frames false s).backtrace_last_exn =
      some exn := by
  rw [stash_fresh_eq exn frames s hact hne]
  exact ⟨rfl, rfl, rfl⟩

theorem fresh_raise_restarts_witness :
    (⟨true, [backtrace_slot.native 3], 1, some 4⟩ : CamlState).backtrace_active
      = true ∧
    (⟨true, [backtrace_slot.native 3], 1, some 4⟩ :
      CamlState).backtrace_last_exn ≠ some 5 ∧
    ((caml_stash_backtrace 5 [backtrace_slot.native 8] false
        ⟨true, [backtrace_slot.native 3], 1, some 4⟩).backtrace_buffer =
      [backtrace_slot.native 8].take BACKTRACE_BUFFER_SIZE ∧
    (caml_stash_backtrace 5 [backtrace_slot.native 8] false
        ⟨true, [backtrace_slot.native 3], 1, some 4⟩).backtrace_pos =
      ([backtrace_slot.native 8].take BACKTRACE_BUFFER_SIZE).length ∧
    (caml_stash_backtrace 5 [backtrace_slot.native 8] false
        ⟨true, [backtrace_slot.native 3], 1, some 4⟩).backtrace_last_exn =
      some 5) :=
  ⟨rfl, by decide, fresh_raise_restarts 5 [backtrace_slot.native 8]
    ⟨true, [backtrace_slot.native 3], 1, some 4⟩ rfl (by decide)⟩

/-- C8: invoking the raise-path entry point `caml_stash_backtrace` while
recording is inactive is a no-op: it leaves the context's backtrace state
(buffer, length, last exception) entirely unchanged. -/
theorem stash_inactive_noop (exn : Nat) (frames : List backtrace_slot)
    (reraise : Bool) (s : CamlState) (h : s.backtrace_active = false) :
    caml_stash_backtrace exn frames reraise s = s :=
  stash_inactive_eq exn frames reraise s h

theorem stash_inactive_noop_witness :
    initState.backtrace_active = false ∧
    caml_stash_backtrace 3 [backtrace_slot.native 1] true initState =
      initState :=
  ⟨rfl, stash_inactive_noop 3 [backtrace_slot.native 1] true initState rfl⟩

/-- C10: in every reachable context state, the buffer holds valid slots
exactly at indices `0 .. backtrace_pos - 1`, and `backtrace_pos` never
exceeds the fixed cap `BACKTRACE_BUFFER_SIZE`. -/
theorem buffer_valid_and_capped {s : CamlState} (h : Reachable s) :
    s.backtrace_buffer.length = s.backtrace_pos ∧
    s.backtrace_pos ≤ BACKTRACE_BUFFER_SIZE :=
  ⟨(stateInv_reachable h).1, (stateInv_reachable h).2.1⟩

theorem buffer_valid_and_capped_witness :
    Reachable demoActive ∧
    demoActive.backtrace_buffer.length = demoActive.backtrace_pos ∧
    demoActive.backtrace_pos ≤ BACKTRACE_BUFFER_SIZE :=
  ⟨demoActive_reachable, buffer_valid_and_capped demoActive_reachable⟩

/-- C4: on a call stack deeper than `K`, an ordinary snapshot
(`caml_get_callstack` with a negative `alloc_idx`) limited to `max_slots = K`
returns exactly `K` slots, and they are the `K` innermost frames in
innermost-to-outermost order, the walk continuing into parent fibers when a
fiber's chain is exhausted. -/
theorem get_callstack_truncates (K alloc_pc : Nat) (fibers : List (List Nat))
    (alloc_idx : Int) (hdeep : K < (logicalCallstack fibers).length)
    (hneg : alloc_idx < 0) :
    (caml_get_callstack K alloc_pc fibers alloc_idx).slots.length = K ∧
    (caml_get_callstack K alloc_pc fibers alloc_idx).slots =
      ((logicalCallstack fibers).take K).map backtrace_slot.native := by
  have hnot : ¬ (0 : Int) ≤ alloc_idx := by omega
  constructor
  · simp only [caml_get_callstack, if_neg hnot, List.length_take,
      List.length_map]
    omega
  · simp only [caml_get_callstack, if_neg hnot, List.map_take]

theorem get_callstack_truncates_witness :
    1 < (logicalCallstack [[4], [6]]).length ∧ (-1 : Int) < 0 ∧
    ((caml_get_callstack 1 0 [[4], [6]] (-1)).slots.length = 1 ∧
      (caml_get_callstack 1 0 [[4], [6]] (-1)).slots =
        ((logicalCallstack [[4], [6]]).take 1).map backtrace_slot.native) :=
  ⟨by decide, by decide,
    get_callstack_truncates 1 0 [[4], [6]] (-1) (by decide) (by decide)⟩

/-- C5: a capture requested with `alloc_idx ≥ 0` is marked as an
allocation-site capture, its slot 0 is the synthesized allocation call site,
the ordinary call-frame walk follows after it, and it is distinguished (by
the allocation-site marking of slot 0) from an ordinary raise capture taken
on an otherwise identical stack. -/
theorem alloc_capture_slot0 (m alloc_pc : Nat) (fibers : List (List Nat))
    (alloc_idx : Int) (h0 : 0 ≤ alloc_idx) (h1 : 1 ≤ m) :
    (caml_get_callstack m alloc_pc fibers alloc_idx).allocSite0 = true ∧
    (caml_get_callstack m alloc_pc fibers alloc_idx).slots.head? =
      some (backtrace_slot.native alloc_pc) ∧
    (caml_get_callstack m alloc_pc fibers alloc_idx).slots.tail =
      ((logicalCallstack fibers).map backtrace_slot.native).take (m - 1) ∧
    (caml_get_callstack m alloc_pc fibers (-1)).allocSite0 = false := by
  obtain ⟨n, rfl⟩ : ∃ n, m = n + 1 := ⟨m - 1, by omega⟩
  refine ⟨by simp [caml_get_callstack, h0], ?_, ?_, ?_⟩
  · simp [caml_get_callstack, h0, List.take_succ_cons]
  · simp [caml_get_callstack, h0, List.take_succ_cons]
  · have hnot : ¬ (0 : Int) ≤ -1 := by omega
    simp [caml_get_callstack, hnot]

theorem alloc_capture_slot0_witness :
    (0 : Int) ≤ 2 ∧ 1 ≤ 2 ∧
    ((caml_get_callstack 2 11 [[4], [6]] 2).allocSite0 = true ∧
      (caml_get_callstack 2 11 [[4], [6]] 2).slots.head? =
        some (backtrace_slot.native 11) ∧
      (caml_get_callstack 2 11 [[4], [6]] 2).slots.tail =
        ((logicalCallstack [[4], [6]]).map backtrace_slot.native).take
          (2 - 1) ∧
      (caml_get_callstack 2 11 [[4], [6]] (-1)).allocSite0 = false) :=
  ⟨by decide, by decide,
    alloc_capture_slot0 2 11 [[4], [6]] 2 (by decide) (by decide)⟩

/-- C6: loading debug info from a missing or malformed file leaves the table
empty and never fails the caller (the loader is total); decoding any raw
backtrace against the resulting empty table yields only `unknown`
placeholder frames, and the default printer still produces one line per
frame, each the non-empty placeholder line. -/
theorem debug_load_soft_degrades (file : Option cds_file)
    (bt : raw_backtrace)
    (h : file = none ∨ ∃ f, file = some f ∧ f.magic ≠ cds_magic) :
    caml_load_main_debug_info file = [] ∧
    (∀ d ∈ decode_backtrace (caml_load_main_debug_info file) bt,
      d = decoded_frame.unknown) ∧
    (caml_print_exception_backtrace (caml_load_main_debug_info file)
        bt).length = bt.slots.length ∧
    (∀ line ∈ caml_print_exception_backtrace (caml_load_main_debug_info file)
        bt, line = frame_line decoded_frame.unknown) ∧
    frame_line decoded_frame.unknown = "Called from unknown location" ∧
    frame_line decoded_frame.unknown ≠ "" := by
  have hload : caml_load_main_debug_info file = [] := by
    rcases h with h | ⟨f, hf, hm⟩
    · rw [h]; rfl
    · rw [hf]; simp [caml_load_main_debug_info, hm]
  rw [hload]
  refine ⟨rfl, ?_, ?_, ?_, rfl, by decide⟩
  · intro d hd
    obtain ⟨sl, _, rfl⟩ := List.mem_map.1 hd
    exact decode_slot_nil sl
  · simp [caml_print_exception_backtrace, decode_backtrace]
  · intro line hline
    obtain ⟨d, hd, rfl⟩ := List.mem_map.1 hline
    obtain ⟨sl, _, rfl⟩ := List.mem_map.1 hd
    rw [decode_slot_nil sl]

theorem debug_load_soft_degrades_witness :
    ((none : Option cds_file) = none ∨ ∃ f, (none : Option cds_file) = some f
      ∧ f.magic ≠ cds_magic) ∧
    (caml_load_main_debug_info none = [] ∧
      (∀ d ∈ decode_backtrace (caml_load_main_debug_info none)
        ⟨false, [backtrace_slot.native 3, backtrace_slot.interpreted 1 2]⟩,
        d = decoded_frame.unknown) ∧
      (caml_print_exception_backtrace (caml_load_main_debug_info none)
        ⟨false, [backtrace_slot.native 3,
          backtrace_slot.interpreted 1 2]⟩).length =
        (raw_backtrace.mk false [backtrace_slot.native 3,
          backtrace_slot.interpreted 1 2]).slots.length ∧
      (∀ line ∈ caml_print_exception_backtrace
        (caml_load_main_debug_info none)
        ⟨false, [backtrace_slot.native 3, backtrace_slot.interpreted 1 2]⟩,
        line = frame_line decoded_frame.unknown) ∧
      frame_line decoded_frame.unknown = "Called from unknown location" ∧
      frame_line decoded_frame.unknown ≠ "") :=
  ⟨Or.inl rfl, debug_load_soft_degrades none
    ⟨false, [backtrace_slot.native 3, backtrace_slot.interpreted 1 2]⟩
    (Or.inl rfl)⟩

/-- C9: decoding is deterministic and repeatable — two decodings of the same
raw backtrace against the same table are identical — and the decoded
sequence has the same length and order as the input slots: position `i` of
the output is the decoding of slot `i` of the input. -/
theorem decode_deterministic (table : List debug_event)
    (bt : raw_backtrace) :
    decode_backtrace table bt = decode_backtrace table bt ∧
    (decode_backtrace table bt).length = bt.slots.length ∧
    ∀ i : Nat, (decode_backtrace table bt)[i]? =
      (bt.slots[i]?).map (decode_slot table) := by
  refine ⟨rfl, by simp [decode_backtrace], fun i => ?_⟩
  simp [decode_backtrace]

end Backtrace
